import Mathlib

/-!
A shallow embedding of the CQRS message-dispatch core of codemucker-js-libs
(the hash/id utilities of the language module, and the registry, context
factory and message-handler invoker of the api module), together with
theorems about the dispatch pipeline.

Modelling conventions for the JavaScript source:

* Asynchronous code is embedded by explicit outcome passing: an awaited
  handler call is a total Lean function returning an Except value (a thrown
  error or the settled value).  An async function never throws
  synchronously, so every failure of the invoker surfaces as a rejected
  dispatch result.
* JavaScript object identity is modelled by an objId field: distinct
  allocations carry distinct objId values, and reference (in)equality is
  (in)equality of the embedded objects.
* The uuid() source of randomness and fresh object allocation are embedded
  as explicit state: a stream of uuid strings indexed by a counter, and an
  allocation counter with a heap of allocated data bags.
* Machine arithmetic: the 32-bit coercion of the hash is written with
  explicit wrap-around on Int.
-/

namespace Cqrs

/-- Signed 32-bit wrap-around, modelling the JavaScript coercion x | 0. -/
def toInt32 (n : Int) : Int := (n + 2 ^ 31) % 2 ^ 32 - 2 ^ 31

/-- One step of the string hash: hash = (hash << 5) - hash + charCode, then
hash |= 0.  The JavaScript left shift itself truncates to a signed 32-bit
integer before the subtraction; the subtraction and addition are exact
(double precision suffices) and the final |= 0 wraps again. -/
def hashStep (hash : Int) (c : Nat) : Int := toInt32 (toInt32 (hash * 32) - hash + c)

/-- Models hashCode of the language module: fold hashStep over the code
units of the string, starting from 0. -/
def hashCode (s : String) : Int := s.data.foldl (fun h c => hashStep h c.toNat) 0

/-- Models newId of the api module: hash a generated UUID string, negate the
hash when it is negative, and render the result in decimal.  The UUID string
is passed explicitly here; the source draws it from uuid(). -/
def newId (u : String) : String :=
  let i := hashCode u
  if i < 0 then toString (-i) else toString i

/-- A JavaScript object as seen by the dispatch pipeline: an identity (the
reference), an optional messageName property and an optional payload
property.  Messages are objects whose messageName property is present. -/
structure JsObj where
  objId : Nat
  messageName : Option String
  payload : Option String
deriving DecidableEq

/-- Reading the messageName property of an object; a missing property reads
as undefined, which behaves as the empty (falsy) string in the checks the
pipeline performs on it. -/
def JsObj.getName (m : JsObj) : String := m.messageName.getD ("")

/-- A JavaScript value as classified by the pre-handler loop: undefined,
null, a boolean, a number, a string, a (pending) promise object, or a plain
object.  NaN is not representable in this integer model; no claim depends
on it. -/
inductive Value where
  | undef : Value
  | vnull : Value
  | boolV (b : Bool) : Value
  | numV (n : Int) : Value
  | strV (s : String) : Value
  | promiseV (pid : Nat) : Value
  | objV (o : JsObj) : Value
deriving DecidableEq

/-- JavaScript truthiness test, as used by the checks written !x. -/
def Value.falsy : Value → Bool
  | .undef => true
  | .vnull => true
  | .boolV b => !b
  | .numV n => n == 0
  | .strV s => s == ""
  | .promiseV _ => false
  | .objV _ => false

/-- Models the AppError payload carried by a CqrsApiError: the key, message
and details strings and the data object (here: string-list valued entries,
which is all the engine ever stores). -/
structure AppErrorModel where
  key : Option String
  message : String
  details : Option String
  dataEntries : List (String × List String)
deriving DecidableEq

/-- An error value travelling through the pipeline: either a structured
CqrsApiError / AppError, or an arbitrary foreign error identified by its
allocation id. -/
inductive JsErr where
  | appError (e : AppErrorModel) : JsErr
  | other (errId : Nat) : JsErr
deriving DecidableEq

/-- Models MessageRequestContext: the current message, the request-scoped
data bag (held by reference), the optional parent context, the nesting
depth, the two identifiers and the scoped logger name.  The api facade field
is not modelled; nested calls are expressed by invoking the factory and the
invoker explicitly. -/
inductive MessageRequestContext where
  | mk (message : JsObj) (dataRef : Nat) (parent : Option MessageRequestContext)
      (nestedDepth : Nat) (contextId : String) (requestId : String)
      (logName : String) : MessageRequestContext

def MessageRequestContext.message : MessageRequestContext → JsObj
  | .mk m _ _ _ _ _ _ => m

def MessageRequestContext.dataRef : MessageRequestContext → Nat
  | .mk _ d _ _ _ _ _ => d

def MessageRequestContext.parent : MessageRequestContext → Option MessageRequestContext
  | .mk _ _ p _ _ _ _ => p

def MessageRequestContext.nestedDepth : MessageRequestContext → Nat
  | .mk _ _ _ n _ _ _ => n

def MessageRequestContext.contextId : MessageRequestContext → String
  | .mk _ _ _ _ c _ _ => c

def MessageRequestContext.requestId : MessageRequestContext → String
  | .mk _ _ _ _ _ r _ => r

def MessageRequestContext.logName : MessageRequestContext → String
  | .mk _ _ _ _ _ _ l => l

/-- The content of a request-scope data bag (a mutable JavaScript object in
the source; string-valued entries suffice for the model). -/
abbrev DataBag := List (String × String)

/-- The explicit state threaded through the context factory: the counter
indexing the uuid stream and serialising allocations, and the heap of
allocated data bags. -/
structure FactoryState where
  counter : Nat
  heap : List (Nat × DataBag)

/-- Association lookup in the heap of allocated data bags. -/
def lookupBag : List (Nat × DataBag) → Nat → Option DataBag
  | [], _ => none
  | (r, b) :: rest, q => if r = q then some b else lookupBag rest q

/-- Every allocated bag reference lies below the allocation counter; this is
the freshness invariant of the factory state. -/
def FactoryState.heapFresh (st : FactoryState) : Bool :=
  st.heap.all (fun p => p.1 < st.counter)

/-- Models DefaultContextFactory.newContext.  With a parent: the requestId
is inherited, the contextId is a fresh draw from the id generator, the depth
is the parent depth plus one and the data bag reference is the parent bag
reference (the very same reference, no copy).  Without a parent: requestId
and contextId are two fresh draws (in that evaluation order) and a fresh
empty data bag is allocated on the heap.  The uuid stream stands for the
uuid() calls inside newId. -/
def newContext (uuids : Nat → String) (message : JsObj)
    (parent : Option MessageRequestContext) (st : FactoryState) :
    MessageRequestContext × FactoryState :=
  match parent with
  | some p =>
    let requestId := p.requestId
    let contextId := newId (uuids st.counter)
    (MessageRequestContext.mk message p.dataRef (some p) (p.nestedDepth + 1)
        contextId requestId ("handler:" ++ message.getName ++ "." ++ requestId),
      { st with counter := st.counter + 1 })
  | none =>
    let requestId := newId (uuids st.counter)
    let contextId := newId (uuids (st.counter + 1))
    let ref := st.counter + 2
    (MessageRequestContext.mk message ref none 0
        contextId requestId ("handler:" ++ message.getName ++ "." ++ requestId),
      { counter := st.counter + 3, heap := (ref, []) :: st.heap })

/-- A nested dispatch chain: starting from a parent context, create one
child context per message, each child becoming the parent of the next. -/
def buildChain (uuids : Nat → String) (st : FactoryState)
    (parent : MessageRequestContext) : List JsObj → List MessageRequestContext
  | [] => []
  | m :: ms =>
    (newContext uuids m (some parent) st).1 ::
      buildChain uuids (newContext uuids m (some parent) st).2
        (newContext uuids m (some parent) st).1 ms

/-- An awaited message handler: given the message and the context it either
throws (a rejected promise) or settles with a value. -/
abbrev MessageHandler := JsObj → MessageRequestContext → Except JsErr Value

/-- An awaited pre-handler.  Its settled value is classified by the loop;
the value may itself be a promise object, which the loop forwards. -/
abbrev PreMessageHandler := JsObj → MessageRequestContext → Except JsErr Value

/-- A post-handler: receives the message, the context and the awaited
response of the main handler; its returned promise is handed to the caller,
so its settled outcome is what the caller observes. -/
abbrev PostMessageHandler :=
  JsObj → MessageRequestContext → Value → Except JsErr Value

/-- Models ApiHandlerRegistry: the name-to-handler mapping (an association
list standing for the JavaScript object), the optional override of the
no-handler handler (none means the built-in default), the ordered
pre-handler list and the optional post-handler. -/
structure ApiHandlerRegistry where
  handlersByMessageName : List (String × MessageHandler)
  noHandlerHandler : Option MessageHandler
  preHandlers : List PreMessageHandler
  postHandler : Option PostMessageHandler

/-- Association lookup in the handler mapping. -/
def lookupHandler : List (String × MessageHandler) → String → Option MessageHandler
  | [], _ => none
  | (k, h) :: rest, name => if k = name then some h else lookupHandler rest name

/-- The registered handler names, in insertion order (Object.keys). -/
def ApiHandlerRegistry.handlerNames (reg : ApiHandlerRegistry) : List String :=
  reg.handlersByMessageName.map Prod.fst

/-- Models ApiHandlerRegistry.DEFAULT_NO_HANDLER: rejects with a
CqrsApiError keyed CQRS_API_NO_SUCH_HANDLER whose data carries the
registered handler names (the source reads them from the live registry at
rejection time; they are passed in here). -/
def DEFAULT_NO_HANDLER (registeredNames : List String) : MessageHandler :=
  fun message _ =>
    .error (.appError
      { key := some ("CQRS_API_NO_SUCH_HANDLER")
        message := "No handler was configured for message \x27" ++
          message.getName ++ "\x27 (type:object)"
        details := some ("see data for available handlers")
        dataEntries := [("registeredHandlers", registeredNames)] })

/-- Models ApiHandlerRegistry.getHandlerOrDefault: the registered handler
when present, else the configured no-handler handler, else the default. -/
def ApiHandlerRegistry.getHandlerOrDefault (reg : ApiHandlerRegistry)
    (messageName : String) : MessageHandler :=
  match lookupHandler reg.handlersByMessageName messageName with
  | some h => h
  | none =>
    match reg.noHandlerHandler with
    | some h => h
    | none => DEFAULT_NO_HANDLER reg.handlerNames

/-- Observable pipeline events: a pre-handler ran, the resolved main handler
ran (with the message name it was resolved for), the post-handler ran. -/
inductive Event where
  | preRun : Event
  | handlerRun (name : String) : Event
  | postRun : Event
deriving DecidableEq

/-- What the original caller observes from a dispatch: the promise resolves
with a value, or the invoker hands back a pending promise object directly
(adopting it), or the promise rejects with an error. -/
inductive DispatchResult where
  | resolved (v : Value) : DispatchResult
  | forwarded (pid : Nat) : DispatchResult
  | rejected (e : JsErr) : DispatchResult
deriving DecidableEq

/-- Result of the pre-handler loop: either it short-circuits the pipeline
with a dispatch result, or it completes, yielding the (possibly replaced)
message, the (possibly re-created) context and the factory state, plus the
trace of events so far. -/
inductive PreLoopResult where
  | shortCircuit (r : DispatchResult) (trace : List Event) : PreLoopResult
  | completed (m : JsObj) (ctxt : MessageRequestContext) (st : FactoryState)
      (trace : List Event) : PreLoopResult

/-- Prepend already-recorded events to the trace of a loop result. -/
def PreLoopResult.withEvents (tr : List Event) : PreLoopResult → PreLoopResult
  | .shortCircuit r t => .shortCircuit r (tr ++ t)
  | .completed m c st t => .completed m c st (tr ++ t)

/-- One step of the pre-handler loop, exactly the classification ladder of
MessageHandlerInvoker.invokeHandlerFor: a throw is re-raised (the outer
catch turns it into a rejection of the same error); a falsy result resolves
the whole dispatch with undefined; a promise result is returned directly; a
truthy result without a truthy messageName is resolved as-is; a message
differing from the current one (by reference) becomes the replacement, with
a child context created from the current context; the current message
itself means continue unchanged. -/
inductive PreStep where
  | stop (r : DispatchResult) : PreStep
  | next (m : JsObj) (ctxt : MessageRequestContext) (st : FactoryState) : PreStep

def preClassify (uuids : Nat → String) (ph : PreMessageHandler) (m : JsObj)
    (ctxt : MessageRequestContext) (st : FactoryState) : PreStep :=
  match ph m ctxt with
  | .error e => .stop (.rejected e)
  | .ok v =>
    if v.falsy then .stop (.resolved .undef)
    else
      match v with
      | .promiseV pid => .stop (.forwarded pid)
      | .objV o =>
        if o.getName = "" then .stop (.resolved (.objV o))
        else if o = m then .next m ctxt st
        else
          let cs := newContext uuids o (some ctxt) st
          .next o cs.1 cs.2
      | v => .stop (.resolved v)

/-- Resume the loop (through the given continuation) after one classified
step, recording the pre-handler run in the trace. -/
def PreStep.continueWith
    (k : JsObj → MessageRequestContext → FactoryState → PreLoopResult) :
    PreStep → PreLoopResult
  | .stop r => .shortCircuit r [.preRun]
  | .next m ctxt st => (k m ctxt st).withEvents [.preRun]

/-- The pre-handler loop of MessageHandlerInvoker.invokeHandlerFor, run over
the remaining pre-handlers. -/
def runPreHandlers (uuids : Nat → String) :
    List PreMessageHandler → JsObj → MessageRequestContext → FactoryState →
    PreLoopResult
  | [], m, ctxt, st => .completed m ctxt st []
  | ph :: rest, m, ctxt, st =>
    (preClassify uuids ph m ctxt st).continueWith (runPreHandlers uuids rest)

/-- The dispatch and post-handler phase of invokeHandlerFor: resolve the
handler (or the default), await it (a throw is caught and becomes a
rejection of the same error), then, when a post-handler is configured, hand
its returned promise to the caller unchanged. -/
def dispatchPhase (reg : ApiHandlerRegistry) (m : JsObj)
    (ctxt : MessageRequestContext) (tr : List Event) :
    DispatchResult × List Event :=
  let name := m.getName
  match reg.getHandlerOrDefault name m ctxt with
  | .error e => (.rejected e, tr ++ [.handlerRun name])
  | .ok response =>
    match reg.postHandler with
    | none => (.resolved response, tr ++ [.handlerRun name])
    | some post =>
      match post m ctxt response with
      | .ok v => (.resolved v, tr ++ [.handlerRun name, .postRun])
      | .error e => (.rejected e, tr ++ [.handlerRun name, .postRun])

/-- Models MessageHandlerInvoker.invokeHandlerFor as a total function from
the registry, the context and the factory state to the dispatch result the
caller observes, paired with the trace of pipeline events. -/
def invokeHandlerFor (uuids : Nat → String) (reg : ApiHandlerRegistry)
    (ctxt : MessageRequestContext) (st : FactoryState) :
    DispatchResult × List Event :=
  match runPreHandlers uuids reg.preHandlers ctxt.message ctxt st with
  | .shortCircuit r tr => (r, tr)
  | .completed m ctxt' _ tr => dispatchPhase reg m ctxt' tr

/-- A fixed JSON rendering of the modelled message fields, standing for
JSON.stringify on the message object. -/
def jsonStringify (m : JsObj) : String :=
  "\x7b" ++ String.intercalate (",")
    ((match m.messageName with
      | some n => ["\x22messageName\x22:\x22" ++ n ++ "\x22"]
      | none => []) ++
     (match m.payload with
      | some p => ["\x22payload\x22:\x22" ++ p ++ "\x22"]
      | none => [])) ++ "\x7d"

/-- Whether the first list of characters occurs at the head of the second. -/
def startsWithChars : List Char → List Char → Bool
  | [], _ => true
  | _ :: _, [] => false
  | p :: ps, c :: cs => p == c && startsWithChars ps cs

/-- Whether the pattern occurs anywhere in the character list. -/
def occursInChars (pat : List Char) : List Char → Bool
  | [] => startsWithChars pat []
  | c :: cs => startsWithChars pat (c :: cs) || occursInChars pat cs

/-- Substring occurrence test, standing for s.indexOf(pat) != -1. -/
def containsSub (s pat : String) : Bool := occursInChars pat.data s.data

/-- The scrubbed copy the source builds with the object spread and the
replaced payload. -/
def scrubPayload (m : JsObj) : JsObj := { m with payload := some ("***scrubbed***") }

/-- Models safeScrub: serialise the message, recompute the serialisation of
a scrubbed copy when a password-like fragment occurs, and return the
original message object.  The recomputed string is bound but never used,
exactly as in the source. -/
def safeScrub (msg : JsObj) : JsObj :=
  let s := jsonStringify msg
  let _s2 := if containsSub s ("assword") then jsonStringify (scrubPayload msg) else s
  msg

/-- Models safeScrubToJsonString, which returns the recomputed string. -/
def safeScrubToJsonString (msg : JsObj) : String :=
  let s := jsonStringify msg
  let s2 := if containsSub s ("assword") then jsonStringify (scrubPayload msg) else s
  s2

/-! ### Sample data used by the concrete witnesses -/

/-- A stand-in uuid stream: the decimal rendering of the draw index. -/
def u0 : Nat → String := fun k => toString k

/-- The initial factory state: nothing drawn, nothing allocated. -/
def st0 : FactoryState := { counter := 0, heap := [] }

/-- A string whose hash is exactly the minimum 32-bit integer: its code
units decompose 2 ^ 31 in the mixed radix of the hash recurrence. -/
def uMin : String :=
  String.mk [Char.ofNat 74, Char.ofNat 31, Char.ofNat 9, Char.ofNat 30,
    Char.ofNat 12, Char.ofNat 2]

/-- A message whose JSON serialisation contains a password-like fragment. -/
def pwMsg : JsObj :=
  { objId := 1, messageName := some ("SetPassword"), payload := some ("password=hunter2") }

/-- Sample messages for concrete dispatch chains. -/
def mPing : JsObj := { objId := 2, messageName := some ("Ping"), payload := none }

def mA : JsObj := { objId := 3, messageName := some ("A"), payload := none }

def mB : JsObj := { objId := 4, messageName := some ("B"), payload := none }

def mUnknown : JsObj := { objId := 5, messageName := some ("Unknown"), payload := none }

/-- Sample handlers and pre/post-handlers for concrete dispatches. -/
def hPing : MessageHandler := fun _ _ => .ok (.strV ("pong"))

def hPong : MessageHandler := fun _ _ => .ok (.strV ("pong2"))

def hB : MessageHandler := fun _ _ => .ok (.strV ("handledB"))

def postW : PostMessageHandler := fun _ _ _ => .ok (.strV ("postValue"))

def phPromise : PreMessageHandler := fun _ _ => .ok (.promiseV 7)

def phFalsy : PreMessageHandler := fun _ _ => .ok .undef

def phReplace : PreMessageHandler := fun _ _ => .ok (.objV mB)

def phThrow : PreMessageHandler := fun _ _ => .error (.other 42)

/-- Sample registries. -/
def regPromise : ApiHandlerRegistry :=
  { handlersByMessageName := [("Ping", hPing)], noHandlerHandler := none,
    preHandlers := [phPromise], postHandler := some postW }

def regFalsy : ApiHandlerRegistry :=
  { handlersByMessageName := [("Ping", hPing)], noHandlerHandler := none,
    preHandlers := [phFalsy], postHandler := some postW }

def regReplace : ApiHandlerRegistry :=
  { handlersByMessageName := [("B", hB)], noHandlerHandler := none,
    preHandlers := [phReplace], postHandler := none }

def regNoHandler : ApiHandlerRegistry :=
  { handlersByMessageName := [("Ping", hPing), ("Pong", hPong)], noHandlerHandler := none,
    preHandlers := [], postHandler := none }

def regPost : ApiHandlerRegistry :=
  { handlersByMessageName := [("Ping", hPing)], noHandlerHandler := none,
    preHandlers := [], postHandler := some postW }

def regThrow : ApiHandlerRegistry :=
  { handlersByMessageName := [("Ping", hPing)], noHandlerHandler := none,
    preHandlers := [phThrow], postHandler := some postW }

/-- Sample root contexts and the factory states after creating them. -/
def ctxtPing : MessageRequestContext := (newContext u0 mPing none st0).1

def stPing : FactoryState := (newContext u0 mPing none st0).2

def ctxtA : MessageRequestContext := (newContext u0 mA none st0).1

def stA : FactoryState := (newContext u0 mA none st0).2

def ctxtU : MessageRequestContext := (newContext u0 mUnknown none st0).1

def stU : FactoryState := (newContext u0 mUnknown none st0).2

/-- The error the default no-handler handler produces for the sample
registry and the Unknown message. -/
def noSuchErrUnknown : AppErrorModel :=
  { key := some ("CQRS_API_NO_SUCH_HANDLER")
    message := "No handler was configured for message \x27Unknown\x27 (type:object)"
    details := some ("see data for available handlers")
    dataEntries := [("registeredHandlers", ["Ping", "Pong"])] }

/-! ### Projection lemmas for the context factory -/

section FactoryLemmas

variable (uuids : Nat → String) (m : JsObj) (p : MessageRequestContext)
variable (st : FactoryState)

@[simp] theorem child_message : (newContext uuids m (some p) st).1.message = m := rfl

@[simp] theorem child_dataRef : (newContext uuids m (some p) st).1.dataRef = p.dataRef := rfl

@[simp] theorem child_parent : (newContext uuids m (some p) st).1.parent = some p := rfl

@[simp] theorem child_nestedDepth :
    (newContext uuids m (some p) st).1.nestedDepth = p.nestedDepth + 1 := rfl

@[simp] theorem child_contextId :
    (newContext uuids m (some p) st).1.contextId = newId (uuids st.counter) := rfl

@[simp] theorem child_requestId :
    (newContext uuids m (some p) st).1.requestId = p.requestId := rfl

@[simp] theorem child_counter :
    (newContext uuids m (some p) st).2.counter = st.counter + 1 := rfl

@[simp] theorem child_heap : (newContext uuids m (some p) st).2.heap = st.heap := rfl

@[simp] theorem root_message : (newContext uuids m none st).1.message = m := rfl

@[simp] theorem root_dataRef : (newContext uuids m none st).1.dataRef = st.counter + 2 := rfl

@[simp] theorem root_parent : (newContext uuids m none st).1.parent = none := rfl

@[simp] theorem root_nestedDepth : (newContext uuids m none st).1.nestedDepth = 0 := rfl

@[simp] theorem root_contextId :
    (newContext uuids m none st).1.contextId = newId (uuids (st.counter + 1)) := rfl

@[simp] theorem root_requestId :
    (newContext uuids m none st).1.requestId = newId (uuids st.counter) := rfl

@[simp] theorem root_counter :
    (newContext uuids m none st).2.counter = st.counter + 3 := rfl

@[simp] theorem root_heap :
    (newContext uuids m none st).2.heap = (st.counter + 2, ([] : DataBag)) :: st.heap := rfl

end FactoryLemmas

/-- Map a list with two pointwise-equal functions. -/
theorem map_ext_fun {α β : Type} (l : List α) (f g : α → β) (h : ∀ a, f a = g a) :
    l.map f = l.map g := by rw [funext h]

/-- The chain has one context per message. -/
theorem buildChain_length (uuids : Nat → String) (ms : List JsObj) :
    ∀ (st : FactoryState) (p : MessageRequestContext),
      (buildChain uuids st p ms).length = ms.length := by
  induction ms with
  | nil => intro st p; rfl
  | cons m ms ih => intro st p; simp [buildChain, ih]

/-- Every context in a chain carries the requestId of the chain's parent. -/
theorem buildChain_map_requestId (uuids : Nat → String) (ms : List JsObj) :
    ∀ (st : FactoryState) (p : MessageRequestContext),
      (buildChain uuids st p ms).map MessageRequestContext.requestId
        = List.replicate ms.length p.requestId := by
  induction ms with
  | nil => intro st p; rfl
  | cons m ms ih =>
    intro st p
    simp only [buildChain, List.map_cons, List.length_cons, List.replicate,
      child_requestId, ih]

/-- The nesting depths along a chain increase one by one from the parent. -/
theorem buildChain_map_nestedDepth (uuids : Nat → String) (ms : List JsObj) :
    ∀ (st : FactoryState) (p : MessageRequestContext),
      (buildChain uuids st p ms).map MessageRequestContext.nestedDepth
        = (List.range ms.length).map (fun i => p.nestedDepth + i + 1) := by
  induction ms with
  | nil => intro st p; rfl
  | cons m ms ih =>
    intro st p
    simp only [buildChain, List.map_cons, List.length_cons, child_nestedDepth, ih]
    rw [List.range_succ_eq_map, List.map_cons, List.map_map]
    refine congrArg₂ List.cons (by omega) ?_
    exact map_ext_fun _ _ _ (fun i => by simp [Function.comp]; omega)

/-- The contextIds along a chain are successive draws from the generator. -/
theorem buildChain_map_contextId (uuids : Nat → String) (ms : List JsObj) :
    ∀ (st : FactoryState) (p : MessageRequestContext),
      (buildChain uuids st p ms).map MessageRequestContext.contextId
        = (List.range ms.length).map (fun i => newId (uuids (st.counter + i))) := by
  induction ms with
  | nil => intro st p; rfl
  | cons m ms ih =>
    intro st p
    simp only [buildChain, List.map_cons, List.length_cons, child_contextId, ih,
      child_counter]
    rw [List.range_succ_eq_map, List.map_cons, List.map_map]
    refine congrArg₂ List.cons (by simp) ?_
    exact map_ext_fun _ _ _ (fun i => by simp [Function.comp]; ring_nf)

/-- Every context in a chain shares the parent's data bag reference. -/
theorem buildChain_dataRef (uuids : Nat → String) (ms : List JsObj) :
    ∀ (st : FactoryState) (p : MessageRequestContext),
      ∀ c ∈ buildChain uuids st p ms, c.dataRef = p.dataRef := by
  induction ms with
  | nil => intro st p c hc; cases hc
  | cons m ms ih =>
    intro st p c hc
    rcases List.mem_cons.mp hc with h | h
    · rw [h]; exact child_dataRef uuids m p st
    · rw [ih _ _ c h]; exact child_dataRef uuids m p st

/-- Looking up a reference above every allocated key finds nothing. -/
theorem lookupBag_none_of_lt (q : Nat) :
    ∀ heap : List (Nat × DataBag), (∀ pr ∈ heap, pr.1 < q) → lookupBag heap q = none := by
  intro heap
  induction heap with
  | nil => intro _; rfl
  | cons pr rest ih =>
    intro h
    have h1 : pr.1 < q := h pr (List.mem_cons_self pr rest)
    have : pr.1 ≠ q := Nat.ne_of_lt h1
    simp only [lookupBag, if_neg this]
    exact ih (fun x hx => h x (List.mem_cons_of_mem pr hx))

/-! ### Bridging lemmas for decimal rendering of integers -/

/-- Rendering a non-negative integer renders its natural-number value. -/
theorem toString_int_ofNat (n : Nat) : toString (Int.ofNat n) = toString n := rfl

/-! ### C9 -/

set_option maxRecDepth 4000 in
/-- C9: the identifier generator newId always returns the decimal string of
a non-negative integer — for every input string it renders the absolute
value of the 32-bit hash, and in particular on a concrete string whose hash
is the minimum 32-bit integer -2 ^ 31 it returns the decimal string
2147483648 (the JavaScript negation does not overflow). -/
theorem newId_nonneg_decimal :
    (∀ u : String, newId u = toString (hashCode u).natAbs) ∧
    hashCode uMin = -(2 ^ 31) ∧
    newId uMin = toString ((2 ^ 31 : Nat)) := by
  refine ⟨?_, ?_, ?_⟩
  · intro u
    unfold newId
    by_cases h : hashCode u < 0
    · simp only [h, if_true]
      have habs : (Int.ofNat (hashCode u).natAbs) = -(hashCode u) :=
        Int.ofNat_natAbs_of_nonpos (le_of_lt h)
      calc toString (-hashCode u)
          = toString (Int.ofNat (hashCode u).natAbs) := by rw [habs]
        _ = toString (hashCode u).natAbs := toString_int_ofNat _
    · simp only [h, if_false]
      have habs : (Int.ofNat (hashCode u).natAbs) = hashCode u :=
        Int.natAbs_of_nonneg (not_lt.mp h)
      calc toString (hashCode u)
          = toString (Int.ofNat (hashCode u).natAbs) := by rw [habs]
        _ = toString (hashCode u).natAbs := toString_int_ofNat _
  · decide
  · decide

/-! ### C10 -/

/-- C10: safeScrub returns the original message object unchanged for every
message; on a concrete message whose serialisation contains the fragment
assword it still returns the original, and the scrubbed copy it computed
(which differs from the original) is discarded — by contrast the string
variant does return the scrubbed serialisation. -/
theorem safeScrub_returns_original :
    (∀ m : JsObj, safeScrub m = m) ∧
    containsSub (jsonStringify pwMsg) "assword" = true ∧
    safeScrub pwMsg = pwMsg ∧
    scrubPayload pwMsg ≠ pwMsg ∧
    safeScrubToJsonString pwMsg = jsonStringify (scrubPayload pwMsg) := by
  refine ⟨fun m => rfl, by decide, rfl, by decide, by decide⟩

/-! ### C5 -/

/-- C5: for every context created by the factory, a child's nestedDepth is
its parent's plus one (a root has 0), a child's requestId equals its
parent's (a root's is freshly generated) and the contextId is freshly drawn
for every context; hence in a nested dispatch chain the Nth child has
nestedDepth N and the root's requestId, and — provided the id generator is
collision-free on the draws used — all contextIds in the chain are pairwise
distinct. -/
theorem context_chain_invariants (uuids : Nat → String) (st0' : FactoryState)
    (m0 : JsObj) (msgs : List JsObj)
    (hinj : ∀ i ∈ List.range (st0'.counter + 3 + msgs.length),
        ∀ j ∈ List.range (st0'.counter + 3 + msgs.length),
        newId (uuids i) = newId (uuids j) → i = j) :
    (newContext uuids m0 none st0').1.nestedDepth = 0 ∧
    (newContext uuids m0 none st0').1.requestId = newId (uuids st0'.counter) ∧
    ((buildChain uuids (newContext uuids m0 none st0').2
          (newContext uuids m0 none st0').1 msgs).map
        MessageRequestContext.nestedDepth
      = (List.range msgs.length).map (fun i => i + 1)) ∧
    ((buildChain uuids (newContext uuids m0 none st0').2
          (newContext uuids m0 none st0').1 msgs).map
        MessageRequestContext.requestId
      = List.replicate msgs.length (newContext uuids m0 none st0').1.requestId) ∧
    ((newContext uuids m0 none st0').1.contextId ::
        (buildChain uuids (newContext uuids m0 none st0').2
            (newContext uuids m0 none st0').1 msgs).map
          MessageRequestContext.contextId).Nodup ∧
    (∀ (m : JsObj) (p : MessageRequestContext) (st : FactoryState),
        (newContext uuids m (some p) st).1.nestedDepth = p.nestedDepth + 1 ∧
        (newContext uuids m (some p) st).1.requestId = p.requestId ∧
        (newContext uuids m (some p) st).1.contextId = newId (uuids st.counter)) := by
  refine ⟨rfl, rfl, ?_, ?_, ?_, fun m p st => ⟨rfl, rfl, rfl⟩⟩
  · rw [buildChain_map_nestedDepth, root_nestedDepth]
    exact map_ext_fun _ _ _ (fun i => by omega)
  · exact buildChain_map_requestId uuids msgs _ _
  · rw [buildChain_map_contextId, root_contextId, root_counter]
    rw [List.nodup_cons]
    constructor
    · intro hmem
      obtain ⟨i, hi, heq⟩ := List.mem_map.mp hmem
      have hi' : i < msgs.length := List.mem_range.mp hi
      have := hinj (st0'.counter + 3 + i)
        (List.mem_range.mpr (by omega)) (st0'.counter + 1)
        (List.mem_range.mpr (by omega)) heq
      omega
    · refine List.Nodup.map_on ?_ (List.nodup_range msgs.length)
      intro i hi j hj hf
      have hi' : i < msgs.length := List.mem_range.mp hi
      have hj' : j < msgs.length := List.mem_range.mp hj
      have := hinj (st0'.counter + 3 + i) (List.mem_range.mpr (by omega))
        (st0'.counter + 3 + j) (List.mem_range.mpr (by omega)) hf
      omega

/-- Witness for C5 at a concrete generator, root message and two-message
chain: all three contextIds of the chain are pairwise distinct. -/
theorem context_chain_invariants_witness :
    ((newContext u0 mPing none st0).1.contextId ::
        (buildChain u0 (newContext u0 mPing none st0).2
            (newContext u0 mPing none st0).1 [mA, mB]).map
          MessageRequestContext.contextId).Nodup :=
  (context_chain_invariants u0 st0 mPing [mA, mB] (by decide)).2.2.2.2.1

/-! ### C6 -/

/-- C6: a child context's data bag is the very same reference as its
parent's (no copy, and no new allocation happens for a child), at every
level of nesting along any chain; a root context allocates a fresh
reference — unused in the prior heap, given the freshness invariant — and
binds it to an empty mapping. -/
theorem data_bag_shared_by_reference (uuids : Nat → String) :
    (∀ (m : JsObj) (p : MessageRequestContext) (st : FactoryState),
        (newContext uuids m (some p) st).1.dataRef = p.dataRef ∧
        (newContext uuids m (some p) st).2.heap = st.heap) ∧
    (∀ (st : FactoryState) (parent : MessageRequestContext) (msgs : List JsObj),
        ∀ c ∈ buildChain uuids st parent msgs, c.dataRef = parent.dataRef) ∧
    (∀ (m : JsObj) (st : FactoryState), st.heapFresh = true →
        lookupBag st.heap (newContext uuids m none st).1.dataRef = none ∧
        lookupBag (newContext uuids m none st).2.heap
            (newContext uuids m none st).1.dataRef = some ([] : DataBag)) := by
  refine ⟨fun m p st => ⟨rfl, rfl⟩,
    fun st parent msgs => buildChain_dataRef uuids msgs st parent, ?_⟩
  · intro m st hfresh
    have hlt : ∀ pr ∈ st.heap, pr.1 < st.counter + 2 := by
      intro pr hpr
      have := List.all_eq_true.mp hfresh pr hpr
      have h2 : pr.1 < st.counter := by
        simpa using this
      omega
    constructor
    · rw [root_dataRef]
      exact lookupBag_none_of_lt _ st.heap hlt
    · rw [root_dataRef, root_heap]
      simp [lookupBag]

/-- Witness for C6 at a concrete root creation from the empty heap: the
freshly allocated data bag reference is bound to the empty mapping. -/
theorem data_bag_shared_by_reference_witness :
    lookupBag (newContext u0 mPing none st0).2.heap
        (newContext u0 mPing none st0).1.dataRef = some ([] : DataBag) :=
  (((data_bag_shared_by_reference u0).2.2) mPing st0 rfl).2

/-! ### Pipeline composition lemmas -/

theorem withEvents_nil (x : PreLoopResult) : x.withEvents [] = x := by
  cases x <;> simp [PreLoopResult.withEvents]

theorem withEvents_withEvents (t1 t2 : List Event) (x : PreLoopResult) :
    (x.withEvents t2).withEvents t1 = x.withEvents (t1 ++ t2) := by
  cases x <;> simp [PreLoopResult.withEvents]

/-- Splitting the pre-handler loop after a prefix that ran to completion. -/
theorem runPreHandlers_append_completed (uuids : Nat → String)
    (ps : List PreMessageHandler) :
    ∀ (qs : List PreMessageHandler) (m : JsObj) (ctxt : MessageRequestContext)
      (st : FactoryState) (m' : JsObj) (c' : MessageRequestContext)
      (s' : FactoryState) (tr : List Event),
      runPreHandlers uuids ps m ctxt st = .completed m' c' s' tr →
      runPreHandlers uuids (ps ++ qs) m ctxt st
        = (runPreHandlers uuids qs m' c' s').withEvents tr := by
  induction ps with
  | nil =>
    intro qs m ctxt st m' c' s' tr h
    simp only [runPreHandlers, PreLoopResult.completed.injEq] at h
    obtain ⟨h1, h2, h3, h4⟩ := h
    subst h1; subst h2; subst h3; subst h4
    rw [List.nil_append, withEvents_nil]
  | cons ph ps ih =>
    intro qs m ctxt st m' c' s' tr h
    simp only [runPreHandlers] at h
    simp only [List.cons_append, runPreHandlers]
    cases hc : preClassify uuids ph m ctxt st with
    | stop r =>
      rw [hc] at h
      simp only [PreStep.continueWith] at h
      exact absurd h (by simp)
    | next m1 c1 s1 =>
      rw [hc] at h
      simp only [PreStep.continueWith] at h ⊢
      cases hr : runPreHandlers uuids ps m1 c1 s1 with
      | shortCircuit r t =>
        rw [hr] at h; simp [PreLoopResult.withEvents] at h
      | completed m2 c2 s2 t2 =>
        rw [hr] at h
        simp only [PreLoopResult.withEvents, PreLoopResult.completed.injEq] at h
        obtain ⟨h1, h2, h3, h4⟩ := h
        subst h1; subst h2; subst h3; subst h4
        rw [List.append_eq, ih qs m1 c1 s1 m2 c2 s2 t2 hr, withEvents_withEvents]

/-- A completed pre-handler loop only records pre-handler runs. -/
theorem runPreHandlers_trace_preRun (uuids : Nat → String)
    (ps : List PreMessageHandler) :
    ∀ (m : JsObj) (ctxt : MessageRequestContext) (st : FactoryState)
      (m' : JsObj) (c' : MessageRequestContext) (s' : FactoryState)
      (tr : List Event),
      runPreHandlers uuids ps m ctxt st = .completed m' c' s' tr →
      ∀ e ∈ tr, e = .preRun := by
  induction ps with
  | nil =>
    intro m ctxt st m' c' s' tr h
    simp only [runPreHandlers, PreLoopResult.completed.injEq] at h
    obtain ⟨-, -, -, h4⟩ := h
    subst h4
    intro e he; cases he
  | cons ph ps ih =>
    intro m ctxt st m' c' s' tr h
    simp only [runPreHandlers] at h
    cases hc : preClassify uuids ph m ctxt st with
    | stop r =>
      rw [hc] at h
      simp only [PreStep.continueWith] at h
      exact absurd h (by simp)
    | next m1 c1 s1 =>
      rw [hc] at h
      simp only [PreStep.continueWith] at h
      cases hr : runPreHandlers uuids ps m1 c1 s1 with
      | shortCircuit r t =>
        rw [hr] at h; simp [PreLoopResult.withEvents] at h
      | completed m2 c2 s2 t2 =>
        rw [hr] at h
        simp only [PreLoopResult.withEvents, PreLoopResult.completed.injEq] at h
        obtain ⟨-, -, -, h4⟩ := h
        subst h4
        intro e he
        rcases List.mem_cons.mp he with h | h
        · rw [h]
        · exact ih m1 c1 s1 m2 c2 s2 t2 hr e h

/-- When the loop completes, the invoker proceeds to the dispatch phase. -/
theorem invoke_of_completed (uuids : Nat → String) (reg : ApiHandlerRegistry)
    (ctxt : MessageRequestContext) (st : FactoryState) (m' : JsObj)
    (c' : MessageRequestContext) (s' : FactoryState) (tr : List Event)
    (hpre : runPreHandlers uuids reg.preHandlers ctxt.message ctxt st
      = .completed m' c' s' tr) :
    invokeHandlerFor uuids reg ctxt st = dispatchPhase reg m' c' tr := by
  unfold invokeHandlerFor
  rw [hpre]

/-- When, after a completed prefix, a pre-handler's classification stops the
loop, the invoker returns that stop result with the pre-only trace. -/
theorem invoke_of_prefix_stop (uuids : Nat → String) (reg : ApiHandlerRegistry)
    (ctxt : MessageRequestContext) (st : FactoryState)
    (pres₁ : List PreMessageHandler) (ph : PreMessageHandler)
    (rest : List PreMessageHandler) (m' : JsObj) (c' : MessageRequestContext)
    (s' : FactoryState) (tr : List Event) (r : DispatchResult)
    (hsplit : reg.preHandlers = pres₁ ++ ph :: rest)
    (hpre : runPreHandlers uuids pres₁ ctxt.message ctxt st
      = .completed m' c' s' tr)
    (hstep : preClassify uuids ph m' c' s' = .stop r) :
    invokeHandlerFor uuids reg ctxt st = (r, tr ++ [.preRun]) := by
  unfold invokeHandlerFor
  rw [hsplit,
    runPreHandlers_append_completed uuids pres₁ _ _ _ _ _ _ _ _ hpre]
  simp [runPreHandlers, hstep, PreStep.continueWith, PreLoopResult.withEvents]

/-- Traces made of pre-handler runs contain no handler or post events. -/
theorem no_dispatch_events_in_pre_trace (tr : List Event)
    (htr : ∀ e ∈ tr, e = Event.preRun) :
    (∀ name, Event.handlerRun name ∉ tr ++ [Event.preRun]) ∧
    Event.postRun ∉ tr ++ [Event.preRun] := by
  constructor
  · intro name hmem
    rcases List.mem_append.mp hmem with h | h
    · exact Event.noConfusion (htr _ h)
    · exact Event.noConfusion (List.mem_singleton.mp h)
  · intro hmem
    rcases List.mem_append.mp hmem with h | h
    · exact Event.noConfusion (htr _ h)
    · exact Event.noConfusion (List.mem_singleton.mp h)

/-! ### C1 -/

/-- C1: when, after any completed prefix of pre-handlers, a pre-handler's
settled result is classified as a pending promise, that promise object is
returned directly to the original caller (the dispatch adopts it), and
neither the matched handler nor the post-handler runs during that
dispatch — the trace holds pre-handler runs only. -/
theorem pre_pending_promise_short_circuits (uuids : Nat → String)
    (reg : ApiHandlerRegistry) (ctxt : MessageRequestContext) (st : FactoryState)
    (pres₁ : List PreMessageHandler) (ph : PreMessageHandler)
    (rest : List PreMessageHandler) (m' : JsObj) (ctxt' : MessageRequestContext)
    (st' : FactoryState) (tr : List Event) (pid : Nat)
    (hsplit : reg.preHandlers = pres₁ ++ ph :: rest)
    (hpre : runPreHandlers uuids pres₁ ctxt.message ctxt st
      = .completed m' ctxt' st' tr)
    (hph : ph m' ctxt' = .ok (.promiseV pid)) :
    invokeHandlerFor uuids reg ctxt st = (.forwarded pid, tr ++ [.preRun]) ∧
    (∀ name, Event.handlerRun name ∉ tr ++ [Event.preRun]) ∧
    Event.postRun ∉ tr ++ [Event.preRun] := by
  have hstep : preClassify uuids ph m' ctxt' st' = .stop (.forwarded pid) := by
    simp [preClassify, hph, Value.falsy]
  have htr := runPreHandlers_trace_preRun uuids pres₁ _ _ _ _ _ _ _ hpre
  exact ⟨invoke_of_prefix_stop uuids reg ctxt st pres₁ ph rest m' ctxt' st' tr _
      hsplit hpre hstep,
    no_dispatch_events_in_pre_trace tr htr⟩

/-- Witness for C1: a concrete pre-handler returning the pending promise 7
makes the dispatch hand that promise back; the registered handler and the
configured post-handler leave no trace. -/
theorem pre_pending_promise_short_circuits_witness :
    invokeHandlerFor u0 regPromise ctxtPing stPing
      = (.forwarded 7, [Event.preRun]) ∧
    (∀ name, Event.handlerRun name ∉ ([] : List Event) ++ [Event.preRun]) := by
  have h := pre_pending_promise_short_circuits u0 regPromise ctxtPing stPing
    [] phPromise [] ctxtPing.message ctxtPing stPing [] 7 rfl rfl rfl
  exact ⟨h.1, h.2.1⟩

/-! ### C2 -/

/-- C2: when, after any completed prefix of pre-handlers, a pre-handler's
settled result is falsy, the whole pipeline aborts and the dispatch
resolves immediately with undefined, and the matched main handler is
observably never invoked (no handler event in the trace). -/
theorem pre_falsy_aborts_pipeline (uuids : Nat → String)
    (reg : ApiHandlerRegistry) (ctxt : MessageRequestContext) (st : FactoryState)
    (pres₁ : List PreMessageHandler) (ph : PreMessageHandler)
    (rest : List PreMessageHandler) (m' : JsObj) (ctxt' : MessageRequestContext)
    (st' : FactoryState) (tr : List Event) (v : Value)
    (hsplit : reg.preHandlers = pres₁ ++ ph :: rest)
    (hpre : runPreHandlers uuids pres₁ ctxt.message ctxt st
      = .completed m' ctxt' st' tr)
    (hph : ph m' ctxt' = .ok v)
    (hfalsy : v.falsy = true) :
    invokeHandlerFor uuids reg ctxt st = (.resolved .undef, tr ++ [.preRun]) ∧
    (∀ name, Event.handlerRun name ∉ tr ++ [Event.preRun]) ∧
    Event.postRun ∉ tr ++ [Event.preRun] := by
  have hstep : preClassify uuids ph m' ctxt' st' = .stop (.resolved .undef) := by
    simp [preClassify, hph, hfalsy]
  have htr := runPreHandlers_trace_preRun uuids pres₁ _ _ _ _ _ _ _ hpre
  exact ⟨invoke_of_prefix_stop uuids reg ctxt st pres₁ ph rest m' ctxt' st' tr _
      hsplit hpre hstep,
    no_dispatch_events_in_pre_trace tr htr⟩

/-- Witness for C2: a concrete pre-handler returning undefined resolves the
dispatch with undefined and the registered handler leaves no trace. -/
theorem pre_falsy_aborts_pipeline_witness :
    invokeHandlerFor u0 regFalsy ctxtPing stPing
      = (.resolved .undef, [Event.preRun]) ∧
    (∀ name, Event.handlerRun name ∉ ([] : List Event) ++ [Event.preRun]) := by
  have h := pre_falsy_aborts_pipeline u0 regFalsy ctxtPing stPing
    [] phFalsy [] ctxtPing.message ctxtPing stPing [] .undef rfl rfl rfl rfl
  exact ⟨h.1, h.2.1⟩

/-! ### C8 -/

/-- C8: when, after any completed prefix of pre-handlers, a pre-handler
throws or rejects, the pipeline aborts — no handler or post-handler event
is recorded — and the dispatch rejects with the very same error value,
unwrapped. -/
theorem pre_handler_failure_propagates (uuids : Nat → String)
    (reg : ApiHandlerRegistry) (ctxt : MessageRequestContext) (st : FactoryState)
    (pres₁ : List PreMessageHandler) (ph : PreMessageHandler)
    (rest : List PreMessageHandler) (m' : JsObj) (ctxt' : MessageRequestContext)
    (st' : FactoryState) (tr : List Event) (e : JsErr)
    (hsplit : reg.preHandlers = pres₁ ++ ph :: rest)
    (hpre : runPreHandlers uuids pres₁ ctxt.message ctxt st
      = .completed m' ctxt' st' tr)
    (hph : ph m' ctxt' = .error e) :
    invokeHandlerFor uuids reg ctxt st = (.rejected e, tr ++ [.preRun]) ∧
    (∀ name, Event.handlerRun name ∉ tr ++ [Event.preRun]) ∧
    Event.postRun ∉ tr ++ [Event.preRun] := by
  have hstep : preClassify uuids ph m' ctxt' st' = .stop (.rejected e) := by
    simp [preClassify, hph]
  have htr := runPreHandlers_trace_preRun uuids pres₁ _ _ _ _ _ _ _ hpre
  exact ⟨invoke_of_prefix_stop uuids reg ctxt st pres₁ ph rest m' ctxt' st' tr _
      hsplit hpre hstep,
    no_dispatch_events_in_pre_trace tr htr⟩

/-- Witness for C8: a concrete pre-handler throwing a foreign error makes
the dispatch reject with exactly that error, before any handler runs. -/
theorem pre_handler_failure_propagates_witness :
    invokeHandlerFor u0 regThrow ctxtPing stPing
      = (.rejected (.other 42), [Event.preRun]) ∧
    (∀ name, Event.handlerRun name ∉ ([] : List Event) ++ [Event.preRun]) := by
  have h := pre_handler_failure_propagates u0 regThrow ctxtPing stPing
    [] phThrow [] ctxtPing.message ctxtPing stPing [] (.other 42) rfl rfl rfl
  exact ⟨h.1, h.2.1⟩

/-! ### C3 -/

/-- C3: when the last pre-handler settles with a message object different
(by reference) from the current message, the invoker creates a child
context through the context factory with the current context as parent,
makes the replacement the current message, and the main handler resolved
for — and invoked with — the replacement message determines the outcome;
the created context has the replacement as its message and the previous
context as its parent. -/
theorem pre_replacement_message_dispatch (uuids : Nat → String)
    (reg : ApiHandlerRegistry) (ctxt : MessageRequestContext) (st : FactoryState)
    (pres₁ : List PreMessageHandler) (ph : PreMessageHandler)
    (m' : JsObj) (ctxt' : MessageRequestContext) (st' : FactoryState)
    (tr : List Event) (o : JsObj) (v : Value)
    (hsplit : reg.preHandlers = pres₁ ++ [ph])
    (hpre : runPreHandlers uuids pres₁ ctxt.message ctxt st
      = .completed m' ctxt' st' tr)
    (hph : ph m' ctxt' = .ok (.objV o))
    (hname : o.getName ≠ "")
    (hneq : o ≠ m')
    (hh : reg.getHandlerOrDefault o.getName o
        (newContext uuids o (some ctxt') st').1 = .ok v)
    (hpost : reg.postHandler = none) :
    invokeHandlerFor uuids reg ctxt st
      = (.resolved v, (tr ++ [Event.preRun]) ++ [Event.handlerRun o.getName]) ∧
    (newContext uuids o (some ctxt') st').1.parent = some ctxt' ∧
    (newContext uuids o (some ctxt') st').1.message = o ∧
    (newContext uuids o (some ctxt') st').1.nestedDepth
      = ctxt'.nestedDepth + 1 := by
  have hstep : preClassify uuids ph m' ctxt' st'
      = .next o (newContext uuids o (some ctxt') st').1
          (newContext uuids o (some ctxt') st').2 := by
    simp [preClassify, hph, Value.falsy, hname, hneq]
  have hfull : runPreHandlers uuids reg.preHandlers ctxt.message ctxt st
      = .completed o (newContext uuids o (some ctxt') st').1
          (newContext uuids o (some ctxt') st').2 (tr ++ [Event.preRun]) := by
    rw [hsplit,
      runPreHandlers_append_completed uuids pres₁ _ _ _ _ _ _ _ _ hpre]
    simp [runPreHandlers, hstep, PreStep.continueWith, PreLoopResult.withEvents]
  have hmain := invoke_of_completed uuids reg ctxt st _ _ _ _ hfull
  rw [hmain]
  refine ⟨?_, rfl, rfl, rfl⟩
  simp [dispatchPhase, hh, hpost]

/-- Witness for C3: a concrete pre-handler replaces message A by message B;
the handler registered for B handles the dispatch and its value is the
outcome. -/
theorem pre_replacement_message_dispatch_witness :
    invokeHandlerFor u0 regReplace ctxtA stA
      = (.resolved (.strV ("handledB")),
          [Event.preRun, Event.handlerRun ("B")]) ∧
    (newContext u0 mB (some ctxtA) stA).1.parent = some ctxtA := by
  have h := pre_replacement_message_dispatch u0 regReplace ctxtA stA
    [] phReplace ctxtA.message ctxtA stA [] mB (.strV ("handledB"))
    rfl rfl rfl (by decide) (by decide) rfl rfl
  exact ⟨h.1, h.2.1⟩

/-! ### C7 -/

/-- C7: after the pre-handler loop completes and the resolved handler
settles with a response, the outcome is that response unchanged when no
post-handler is configured; when one is configured it is invoked with the
current message, the context and the handler's response, and the value the
caller receives is the post-handler's settled return value, whatever the
handler's response was. -/
theorem post_handler_transforms_response (uuids : Nat → String)
    (reg : ApiHandlerRegistry) (ctxt : MessageRequestContext) (st : FactoryState)
    (m' : JsObj) (ctxt' : MessageRequestContext) (st' : FactoryState)
    (tr : List Event) (resp : Value)
    (hpre : runPreHandlers uuids reg.preHandlers ctxt.message ctxt st
      = .completed m' ctxt' st' tr)
    (hh : reg.getHandlerOrDefault m'.getName m' ctxt' = .ok resp) :
    (reg.postHandler = none →
      invokeHandlerFor uuids reg ctxt st
        = (.resolved resp, tr ++ [Event.handlerRun m'.getName])) ∧
    (∀ (post : PostMessageHandler) (v : Value),
      reg.postHandler = some post → post m' ctxt' resp = .ok v →
      invokeHandlerFor uuids reg ctxt st
        = (.resolved v, tr ++ [Event.handlerRun m'.getName, Event.postRun])) := by
  have hmain := invoke_of_completed uuids reg ctxt st _ _ _ _ hpre
  constructor
  · intro hnone
    rw [hmain]
    simp [dispatchPhase, hh, hnone]
  · intro post v hsome hres
    rw [hmain]
    simp [dispatchPhase, hh, hsome, hres]

/-- Witness for C7: with a concrete post-handler configured, the caller
receives the post-handler's value, not the main handler's response. -/
theorem post_handler_transforms_response_witness :
    invokeHandlerFor u0 regPost ctxtPing stPing
      = (.resolved (.strV ("postValue")),
          [Event.handlerRun ("Ping"), Event.postRun]) := by
  have h := post_handler_transforms_response u0 regPost ctxtPing stPing
    ctxtPing.message ctxtPing stPing [] (.strV ("pong")) rfl rfl
  exact h.2 postW (.strV ("postValue")) rfl rfl

/-! ### C4 (amended) -/

/-- C4 as amended: dispatching a message whose name has no registered
handler — with the default no-handler handler in place — always yields a
rejected outcome (the model is total, so no synchronous throw exists) whose
CqrsApiError carries the key CQRS_API_NO_SUCH_HANDLER (not the bare
NO_SUCH_HANDLER the claim states) and whose data lists every currently
registered handler name. -/
theorem no_such_handler_rejects_with_prefixed_key (uuids : Nat → String)
    (reg : ApiHandlerRegistry) (ctxt : MessageRequestContext) (st : FactoryState)
    (m' : JsObj) (ctxt' : MessageRequestContext) (st' : FactoryState)
    (tr : List Event)
    (hpre : runPreHandlers uuids reg.preHandlers ctxt.message ctxt st
      = .completed m' ctxt' st' tr)
    (hno : lookupHandler reg.handlersByMessageName m'.getName = none)
    (hdefault : reg.noHandlerHandler = none) :
    invokeHandlerFor uuids reg ctxt st
      = (.rejected (.appError
          { key := some ("CQRS_API_NO_SUCH_HANDLER")
            message := "No handler was configured for message \x27" ++
              m'.getName ++ "\x27 (type:object)"
            details := some ("see data for available handlers")
            dataEntries := [("registeredHandlers", reg.handlerNames)] }),
        tr ++ [Event.handlerRun m'.getName]) := by
  have hmain := invoke_of_completed uuids reg ctxt st _ _ _ _ hpre
  rw [hmain]
  simp [dispatchPhase, ApiHandlerRegistry.getHandlerOrDefault, hno, hdefault,
    DEFAULT_NO_HANDLER]

/-- Witness for the amended C4: dispatching the unregistered Unknown
message against a registry holding Ping and Pong rejects with the prefixed
key and both registered names in the diagnostic data. -/
theorem no_such_handler_rejects_with_prefixed_key_witness :
    invokeHandlerFor u0 regNoHandler ctxtU stU
      = (.rejected (.appError noSuchErrUnknown),
          [Event.handlerRun ("Unknown")]) := by
  have h := no_such_handler_rejects_with_prefixed_key u0 regNoHandler ctxtU stU
    ctxtU.message ctxtU stU [] rfl rfl rfl
  exact h

/-- Counterexample to C4 as stated: at a concrete dispatch of an
unregistered message the rejection's key is the string
CQRS_API_NO_SUCH_HANDLER, which is not the string NO_SUCH_HANDLER the claim
names. -/
theorem no_such_handler_key_counterexample :
    (invokeHandlerFor u0 regNoHandler ctxtU stU).1
      = .rejected (.appError noSuchErrUnknown) ∧
    noSuchErrUnknown.key = some ("CQRS_API_NO_SUCH_HANDLER") ∧
    ¬ noSuchErrUnknown.key = some ("NO_SUCH_HANDLER") := by
  exact ⟨rfl, rfl, by decide⟩

end Cqrs
